import Mathlib

/-!
Verification development for the GoChat backend (`server.js`): the WebSocket
authentication middleware, the real-time presence/message fan-out core
described by the specification, the service-worker fetch handler and the
HTTP rate limiters.  Pure parts of the JavaScript source are embedded as
Lean functions; the in-memory core that the source imports but does not
show is modelled from the specification.
-/

namespace GoChat

/-! ## Identity and token verification -/

/-- Identity claims extracted from a verified token
(`socket.userId`, `socket.username` in `server.js`). -/
structure Identity where
  userId : Nat
  username : String
deriving DecidableEq, Repr

/-- Authentication failures of the handshake middleware.
`missing` is the `'Autenticação necessária'` rejection,
`invalid` the `'Token inválido'` rejection of `server.js`. -/
inductive AuthErr where
  | missing
  | invalid
deriving DecidableEq, Repr

/-- Modelled from the spec: facts about one credential string that
`jwt.verify` (the `jsonwebtoken` dependency, not part of the repository
source) would check: well-formedness, signature validity against the
configured secret, expiry time, and the embedded identity claims. -/
structure TokenInfo where
  sigValid : Bool
  expiresAt : Nat
  claims : Identity
deriving DecidableEq, Repr

/-- Modelled from the spec: the verification environment maps a credential
string to its token facts; `none` means the string is malformed (not a
parseable JWT). -/
def VerifyEnv : Type := String → Option TokenInfo

/-- Modelled from the spec (§4.1): `jwt.verify` succeeds only on a
well-formed token whose signature is valid and which has not expired;
every other case throws, which the middleware turns into
`'Token inválido'`. -/
def jwtVerify (env : VerifyEnv) (now : Nat) (tok : String) : Except AuthErr Identity :=
  match env tok with
  | none => .error .invalid
  | some info =>
    if info.sigValid && decide (now < info.expiresAt) then .ok info.claims
    else .error .invalid

/-- A socket.io handshake object as seen by the middleware: the client
`auth` payload, the query string, and the HTTP request headers
(lower-cased names, as node delivers them). -/
structure Handshake where
  authToken : Option String
  queryToken : Option String
  headers : List (String × String)
deriving DecidableEq, Repr

/-- JavaScript `a || b` on two possibly-absent strings: the empty string is
falsy, so it falls through to the right operand. -/
def jsOr (a b : Option String) : Option String :=
  match a with
  | some t => if t = "" then b else some t
  | none => b

/-- `const token = socket.handshake.auth.token || socket.handshake.query.token`
(`server.js` line 159), followed by the `if (!token)` falsiness test:
returns `none` exactly when the middleware takes the
`'Autenticação necessária'` branch. -/
def extractToken (hs : Handshake) : Option String :=
  match jsOr hs.authToken hs.queryToken with
  | none => none
  | some t => if t = "" then none else some t

/-- The `io.use` WebSocket authentication middleware of `server.js`
(lines 158–173): extract the token, reject when absent, verify otherwise. -/
def wsAuthMiddleware (env : VerifyEnv) (now : Nat) (hs : Handshake) :
    Except AuthErr Identity :=
  match extractToken hs with
  | none => .error .missing
  | some t => jwtVerify env now t

/-! ## Connection registry and channel manager

The real-time core (`./src/websocket/socketHandler`) is imported by
`server.js` but its source is not part of the supplied material; the
definitions below are modelled from the specification (§3, §4.2, §4.3). -/

/-- Connection identifiers allocated by the registry. -/
abbrev ConnId := Nat

/-- Channel identifiers. -/
abbrev ChanId := Nat

/-- Modelled from the spec (§3): a connection record — identity fixed at
authentication, the set of joined channels, and the last-activity
timestamp.  (The transport handle is left abstract: delivery results are
reported as connection-id lists.) -/
structure Conn where
  ident : Identity
  joined : List ChanId
  lastActivityAt : Nat
deriving Repr

/-- Modelled from the spec (§3, §4.2, §4.3): the shared state of the
Connection Registry and Channel Manager.  `chans c = none` means channel
`c` does not exist (channel records are created lazily on first join and
deleted when membership empties). -/
structure CoreState where
  conns : ConnId → Option Conn
  chans : ChanId → Option (List ConnId)
  nextId : ConnId

/-- The empty core state at process start. -/
def initState : CoreState :=
  { conns := fun _ => none, chans := fun _ => none, nextId := 0 }

/-- Membership snapshot of a channel (`membersOf`, §4.3); an absent
channel has no members. -/
def membersOf (st : CoreState) (ch : ChanId) : List ConnId :=
  (st.chans ch).getD []

/-- The channels a connection has joined; empty for an unknown id. -/
def joinedOf (st : CoreState) (cid : ConnId) : List ChanId :=
  ((st.conns cid).map Conn.joined).getD []

/-- Errors of the core operations (§7 taxonomy). -/
inductive CoreErr where
  | notAuthenticated
  | notMember
  | rateLimited
deriving DecidableEq, Repr

/-- Modelled from the spec (§4.2): `register(identity, transportHandle)`
allocates a fresh connection record with no joined channels and returns
its id; always succeeds. -/
def register (st : CoreState) (ident : Identity) (now : Nat) : CoreState × ConnId :=
  ({ st with
      conns := fun k =>
        if k = st.nextId then some ⟨ident, [], now⟩ else st.conns k,
      nextId := st.nextId + 1 },
   st.nextId)

/-- Drop one connection id from an optional member list, deleting the
channel record when the remaining membership is empty (§4.3). -/
def rmMember (cid : ConnId) : Option (List ConnId) → Option (List ConnId)
  | none => none
  | some ms =>
    let ms' := ms.filter (fun m => m ≠ cid)
    if ms' = [] then none else some ms'

/-- Add an element to a set represented as a duplicate-free list. -/
def insertNew {α : Type} [DecidableEq α] (x : α) (l : List α) : List α :=
  if x ∈ l then l else x :: l

/-- Modelled from the spec (§4.3): `join(connectionId, channelId)` fails
with `NotAuthenticatedError` on an unknown connection id; otherwise it
creates the channel record if absent and records the membership on both
sides.  On failure the state is returned unchanged. -/
def join (st : CoreState) (cid : ConnId) (ch : ChanId) :
    CoreState × Option CoreErr :=
  match st.conns cid with
  | none => (st, some .notAuthenticated)
  | some c =>
    ({ st with
        conns := fun k =>
          if k = cid then some { c with joined := insertNew ch c.joined }
          else st.conns k,
        chans := fun k =>
          if k = ch then some (insertNew cid (membersOf st ch)) else st.chans k },
     none)

/-- Modelled from the spec (§4.3, §8): `leave(connectionId, channelId)`
removes the membership on both sides; when the remaining membership is
empty the channel record is deleted; leaving a channel never joined is a
no-op, not an error. -/
def leave (st : CoreState) (cid : ConnId) (ch : ChanId) : CoreState :=
  { st with
      conns := fun k =>
        if k = cid then
          (st.conns k).map fun c =>
            { c with joined := c.joined.filter (fun x => x ≠ ch) }
        else st.conns k,
      chans := fun k => if k = ch then rmMember cid (st.chans ch) else st.chans k }

/-- Evict a connection from each channel of a list (the channels it had
joined), deleting channels that become empty. -/
def evictAll (cid : ConnId) (l : List ChanId) (st : CoreState) : CoreState :=
  l.foldl (fun s ch =>
    { s with chans := fun k => if k = ch then rmMember cid (s.chans ch) else s.chans k }) st

/-- Modelled from the spec (§4.2): `unregister(connectionId)` removes the
connection and evicts it from every channel it belonged to, cascading
channel teardown; a no-op when the id is already removed (idempotent). -/
def unregister (st : CoreState) (cid : ConnId) : CoreState :=
  match st.conns cid with
  | none => st
  | some c =>
    let st1 := evictAll cid c.joined st
    { st1 with conns := fun k => if k = cid then none else st1.conns k }

/-- Modelled from the spec (§4.2): `touch(connectionId)` updates the
last-activity timestamp. -/
def touch (st : CoreState) (cid : ConnId) (now : Nat) : CoreState :=
  { st with
      conns := fun k =>
        if k = cid then (st.conns k).map fun c => { c with lastActivityAt := now }
        else st.conns k }

/-! ## Message router and rate guard (modelled from §4.4, §4.5) -/

/-- Router configuration: whether the originating connection is excluded
from its own fan-out (§4.4, configurable self-exclusion). -/
structure RouterConfig where
  excludeSelf : Bool
deriving Repr

/-- Modelled from the spec (§4.4): `publish(sender, channel, payload)`
validates that the sender is a member (else `NotMemberError`), resolves
the membership snapshot, and returns the delivery set: every current
member except, when self-exclusion is on, the sender itself.  It does not
mutate registry state. -/
def publish (cfg : RouterConfig) (st : CoreState) (sender : ConnId) (ch : ChanId) :
    Except CoreErr (List ConnId) :=
  let ms := membersOf st ch
  if sender ∈ ms then
    .ok (if cfg.excludeSelf then ms.filter (fun m => m ≠ sender) else ms)
  else .error .notMember

/-- Rate-guard configuration (§4.5): recognized options `maxEvents` and
`windowMs`, scoped per connection. -/
structure RateCfg where
  maxEvents : Nat
  windowMs : Nat
deriving Repr

/-- Modelled from the spec (§4.5): sliding-window guard state — per
connection, the timestamps of admitted events. -/
structure GuardState where
  events : ConnId → List Nat

/-- Guard state with no recorded events. -/
def initGuard : GuardState := ⟨fun _ => []⟩

/-- A timestamp `t` lies in the sliding window ending at `now`:
`t > now - windowMs`. -/
def inWindow (cfg : RateCfg) (now t : Nat) : Bool :=
  decide (now < t + cfg.windowMs)

/-- Modelled from the spec (§4.5): the guard's per-event check (the
spec's admit operation) counts the
connection's events inside the current sliding window; below `maxEvents`
the event is admitted and recorded, otherwise rejected without recording. -/
def allowEvent (cfg : RateCfg) (gs : GuardState) (cid : ConnId) (now : Nat) :
    Bool × GuardState :=
  let recent := (gs.events cid).filter (inWindow cfg now)
  if recent.length < cfg.maxEvents then
    (true, ⟨fun k => if k = cid then now :: recent else gs.events k⟩)
  else (false, gs)

/-- Modelled from the spec (§4.5): the guarded publish path — the rate
guard runs first; on reject the router skips `publish` and signals
`RateLimitedError` back to the originating connection. -/
def routedPublish (gcfg : RateCfg) (rcfg : RouterConfig) (gs : GuardState)
    (st : CoreState) (sender : ConnId) (ch : ChanId) (now : Nat) :
    GuardState × Except CoreErr (List ConnId) :=
  match allowEvent gcfg gs sender now with
  | (true, gs') => (gs', publish rcfg st sender ch)
  | (false, _) => (gs, .error .rateLimited)

/-- One publish invocation of a trace (payloads abstracted as `Nat`). -/
structure PubCall where
  sender : ConnId
  chan : ChanId
  payload : Nat
deriving DecidableEq, Repr

/-- An event as observed by a recipient (§6 outbound shape, timestamp
omitted): originating sender, channel and payload. -/
structure Delivered where
  senderId : ConnId
  chan : ChanId
  payload : Nat
deriving DecidableEq, Repr

/-- Modelled from the spec (§4.4): the stream a fixed recipient observes
when the router processes a list of publish invocations in order against
a fixed membership state — each successful publish whose delivery set
contains the recipient appends one event, in invocation order. -/
def observedBy (cfg : RouterConfig) (st : CoreState) (calls : List PubCall)
    (r : ConnId) : List Delivered :=
  calls.filterMap fun c =>
    match publish cfg st c.sender c.chan with
    | .ok recips => if r ∈ recips then some ⟨c.sender, c.chan, c.payload⟩ else none
    | .error _ => none

/-! ## Handshake pipeline and reachable states -/

/-- The WebSocket connection pipeline: the `io.use` middleware runs first;
only on success does the registry allocate a connection (spec §2 control
flow, §4.1: rejection happens before any registry mutation).  On failure
the state is returned unchanged together with the authentication error. -/
def wsHandshake (env : VerifyEnv) (now : Nat) (hs : Handshake) (st : CoreState) :
    CoreState × Except AuthErr ConnId :=
  match wsAuthMiddleware env now hs with
  | .error e => (st, .error e)
  | .ok ident =>
    let (st', cid) := register st ident now
    (st', .ok cid)

/-- The core states reachable from the initial state by the operations of
the registry and channel manager. -/
inductive Reachable : CoreState → Prop where
  | init : Reachable initState
  | handshake (env : VerifyEnv) (now : Nat) (hs : Handshake) {st : CoreState} :
      Reachable st → Reachable (wsHandshake env now hs st).1
  | register (ident : Identity) (now : Nat) {st : CoreState} :
      Reachable st → Reachable (register st ident now).1
  | join (cid : ConnId) (ch : ChanId) {st : CoreState} :
      Reachable st → Reachable (join st cid ch).1
  | leave (cid : ConnId) (ch : ChanId) {st : CoreState} :
      Reachable st → Reachable (leave st cid ch)
  | unregister (cid : ConnId) {st : CoreState} :
      Reachable st → Reachable (unregister st cid)
  | touch (cid : ConnId) (now : Nat) {st : CoreState} :
      Reachable st → Reachable (touch st cid now)

/-- Bidirectional membership consistency (§3 invariant): a connection's
joined set holds a channel exactly when that channel's member set holds
the connection id. -/
def MembershipInv (st : CoreState) : Prop :=
  ∀ cid ch, ch ∈ joinedOf st cid ↔ cid ∈ membersOf st ch

/-! ## Service worker fetch handler (`server.js` lines 276–325) -/

/-- The parts of a fetch-event request the handler inspects: HTTP method,
URL pathname, and request mode. -/
structure SWRequest where
  method : String
  pathname : String
  mode : String
deriving DecidableEq, Repr

/-- Outcome of `fetch(request)` for the intercepted request: a successful
network response (abstracted as a `Nat` tag) or a network failure. -/
inductive NetOutcome where
  | ok (resp : Nat)
  | failure
deriving DecidableEq, Repr

/-- What the fetch handler does with an event: return without calling
`respondWith` (pass through to default handling), respond with the
network response, with a cached response, with the navigation fallback
`caches.match('/index.html')` (possibly absent), or with the
`503 Offline` response. -/
inductive SWResult where
  | passThrough
  | fromNetwork (resp : Nat)
  | fromCache (resp : Nat)
  | navFallback (resp : Option Nat)
  | offline503
deriving DecidableEq, Repr

/-- The `fetch` event listener of the service worker: skip non-GET
requests and `/api/`//`/socket.io/` paths; otherwise try the network
first (caching a successful response under the request path) and fall
back to the cache, then to the navigation fallback or a 503.  Returns the
handler's decision together with the cache after the event. -/
def swFetch (cache : String → Option Nat) (net : NetOutcome) (req : SWRequest) :
    SWResult × (String → Option Nat) :=
  if req.method ≠ "GET" then (.passThrough, cache)
  else if req.pathname.startsWith "/api/" || req.pathname.startsWith "/socket.io/" then
    (.passThrough, cache)
  else
    match net with
    | .ok resp =>
      (.fromNetwork resp, fun k => if k = req.pathname then some resp else cache k)
    | .failure =>
      match cache req.pathname with
      | some c => (.fromCache c, cache)
      | none =>
        if req.mode = "navigate" then (.navFallback (cache "/index.html"), cache)
        else (.offline503, cache)

/-- The cache-first discipline in the spec's words: every intercepted GET
request with a cached response is answered from the cache, the network
being consulted only otherwise.  Stated for comparison with `swFetch`. -/
def CacheFirstFetch : Prop :=
  ∀ (cache : String → Option Nat) (net : NetOutcome) (req : SWRequest) (c : Nat),
    cache req.pathname = some c →
    (swFetch cache net req).1 = .passThrough ∨ (swFetch cache net req).1 = .fromCache c

/-! ## HTTP rate limiting (`server.js` lines 87–109) -/

/-- An `express-rate-limit` limiter configuration: window length,
maximum hits per IP per window, and the structured failure message. -/
structure Limiter where
  windowMs : Nat
  maxHits : Nat
  message : String
deriving DecidableEq, Repr

/-- The global limiter: 100 requests per IP per 15 minutes. -/
def limiter : Limiter :=
  { windowMs := 15 * 60 * 1000, maxHits := 100,
    message := "Muitas requisições. Tente novamente mais tarde." }

/-- The auth limiter mounted on `/api/auth/login` and
`/api/auth/register`: 5 requests per IP per 15 minutes. -/
def authLimiter : Limiter :=
  { windowMs := 15 * 60 * 1000, maxHits := 5,
    message := "Muitas tentativas de login. Tente novamente em 15 minutos." }

/-- State of one limiter's in-memory store: the start of the current
window and the hit counts per IP, all counts resetting together when the
window expires (the `express-rate-limit` memory store). -/
structure LimState where
  windowStart : Nat
  hits : String → Nat

/-- Record a hit for `ip` at time `now`, resetting the store first when
the window has expired; returns the new state and whether the request is
admitted (the incremented count does not exceed the limiter's maximum). -/
def hitLimiter (l : Limiter) (st : LimState) (ip : String) (now : Nat) :
    LimState × Bool :=
  let st0 := if st.windowStart + l.windowMs ≤ now then ⟨now, fun _ => 0⟩ else st
  let n := st0.hits ip + 1
  (⟨st0.windowStart, fun k => if k = ip then n else st0.hits k⟩,
   decide (n ≤ l.maxHits))

/-- Paths matched by the `app.use('/api/auth/login', ...)` and
`app.use('/api/auth/register', ...)` mounts (the path itself or a
subpath). -/
def isAuthPath (p : String) : Bool :=
  p = "/api/auth/login" || p.startsWith "/api/auth/login/" ||
  p = "/api/auth/register" || p.startsWith "/api/auth/register/"

/-- How the middleware stack disposes of a request: it reaches its route
handler, or a limiter answers with its structured JSON failure message. -/
inductive HttpOutcome where
  | handled (path : String)
  | limited (message : String)
deriving DecidableEq, Repr

/-- The rate-limiting part of the request pipeline of `server.js`:
`app.use(limiter)` applies the global limiter to every request, and the
auth limiter is additionally applied to the two auth paths; a rejected
request receives the limiter's message and never reaches its route
handler. -/
def handleRequest (gst ast : LimState) (ip path : String) (now : Nat) :
    LimState × LimState × HttpOutcome :=
  let (gst', gok) := hitLimiter limiter gst ip now
  if gok then
    if isAuthPath path then
      let (ast', aok) := hitLimiter authLimiter ast ip now
      if aok then (gst', ast', .handled path)
      else (gst', ast', .limited authLimiter.message)
    else (gst', ast, .handled path)
  else (gst', ast, .limited limiter.message)

/-! ## Concrete states and environments used by the witnesses -/

/-- A first demo identity. -/
def demoIdentA : Identity := ⟨1, "alice"⟩

/-- A second demo identity. -/
def demoIdentB : Identity := ⟨2, "bob"⟩

/-- A third demo identity. -/
def demoIdentC : Identity := ⟨3, "carol"⟩

/-- State after registering connection 0 (identity A). -/
def demoSt1 : CoreState := (register initState demoIdentA 0).1

/-- State after additionally registering connection 1 (identity B). -/
def demoSt2 : CoreState := (register demoSt1 demoIdentB 0).1

/-- State after connection 0 joins channel 7 (sole member). -/
def demoSt3 : CoreState := (join demoSt2 0 7).1

/-- State after connection 1 also joins channel 7. -/
def demoSt4 : CoreState := (join demoSt3 1 7).1

/-- State after additionally registering connection 2 (identity C). -/
def demoSt5 : CoreState := (register demoSt4 demoIdentC 0).1

/-- State with channel 7 holding connections 0, 1 and 2. -/
def demoStABC : CoreState := (join demoSt5 2 7).1

/-- Guard state after a connection's events at the given times. -/
def guardAfter (cfg : RateCfg) (cid : ConnId) (times : List Nat) : GuardState :=
  times.foldl (fun g t => (allowEvent cfg g cid t).2) initGuard

/-- A verification environment acknowledging the single token `"tok"`
(valid signature, expiring at 1000). -/
def demoEnv : VerifyEnv := fun t =>
  if t = "tok" then some ⟨true, 1000, ⟨1, "alice"⟩⟩ else none

/-- A cache holding an entry for the root path. -/
def demoCache : String → Option Nat := fun p => if p = "/" then some 7 else none

/-- Limiter store with every IP at `n` hits in a window starting at 0. -/
def demoLim (n : Nat) : LimState := ⟨0, fun _ => n⟩

/-! ## Invariant development -/

/-- Auxiliary invariant: identifiers at or above the allocation counter
are unused, so `register` always hands out a fresh id. -/
def FreshConns (st : CoreState) : Prop :=
  ∀ k, st.nextId ≤ k → st.conns k = none

/-- The inductive invariant of the core state. -/
def Inv (st : CoreState) : Prop := FreshConns st ∧ MembershipInv st

lemma mem_insertNew {α : Type} [DecidableEq α] {a b : α} {l : List α} :
    a ∈ insertNew b l ↔ a = b ∨ a ∈ l := by
  unfold insertNew
  by_cases h : b ∈ l
  · rw [if_pos h]
    constructor
    · exact Or.inr
    · rintro (rfl | ha)
      · exact h
      · exact ha
  · rw [if_neg h]
    simp [List.mem_cons]

lemma mem_filter_ne {a c : Nat} {l : List Nat} :
    a ∈ l.filter (fun x => x ≠ c) ↔ a ∈ l ∧ a ≠ c := by
  simp [List.mem_filter]

lemma mem_rmMember {a cid : ConnId} {o : Option (List ConnId)} :
    a ∈ (rmMember cid o).getD [] ↔ a ∈ o.getD [] ∧ a ≠ cid := by
  cases o with
  | none => simp [rmMember]
  | some ms =>
    by_cases h : ms.filter (fun m => m ≠ cid) = []
    · simp only [rmMember, if_pos h, Option.getD_none, Option.getD_some]
      simp only [List.not_mem_nil, false_iff]
      rintro ⟨h1, h2⟩
      have : a ∈ ms.filter (fun m => m ≠ cid) := mem_filter_ne.mpr ⟨h1, h2⟩
      rw [h] at this
      exact List.not_mem_nil a this
    · simp only [rmMember, if_neg h, Option.getD_some]
      exact mem_filter_ne

lemma rmMember_some {cid : ConnId} (ms : List ConnId) :
    rmMember cid (some ms) =
      if ms.filter (fun m => m ≠ cid) = [] then none
      else some (ms.filter (fun m => m ≠ cid)) := rfl

lemma rmMember_idem {cid : ConnId} (o : Option (List ConnId)) :
    rmMember cid (rmMember cid o) = rmMember cid o := by
  cases o with
  | none => rfl
  | some ms =>
    by_cases h : ms.filter (fun m => m ≠ cid) = []
    · rw [rmMember_some, if_pos h]
      rfl
    · have hself : (ms.filter (fun m => m ≠ cid)).filter (fun m => m ≠ cid)
          = ms.filter (fun m => m ≠ cid) := by
        apply List.filter_eq_self.mpr
        intro a ha
        exact (List.mem_filter.mp ha).2
      rw [rmMember_some, if_neg h, rmMember_some, hself, if_neg h]

lemma inv_init : Inv initState := by
  constructor
  · intro k _
    rfl
  · intro cid ch
    simp [joinedOf, membersOf, initState]

lemma fresh_not_member {st : CoreState} (hf : FreshConns st) (hm : MembershipInv st)
    {k : ConnId} (hk : st.nextId ≤ k) (ch : ChanId) : k ∉ membersOf st ch := by
  intro hmem
  have h := (hm k ch).mpr hmem
  simp only [joinedOf, hf k hk, Option.map_none', Option.getD_none] at h
  exact List.not_mem_nil ch h

lemma inv_register {st : CoreState} (hinv : Inv st) (ident : Identity) (now : Nat) :
    Inv (register st ident now).1 := by
  obtain ⟨hf, hm⟩ := hinv
  constructor
  · intro k hk
    have hk' : st.nextId + 1 ≤ k := hk
    have hne : ¬ (k = st.nextId) := ne_of_gt hk'
    show (if k = st.nextId then some ⟨ident, [], now⟩ else st.conns k) = none
    rw [if_neg hne]
    exact hf k (Nat.le_of_succ_le hk')
  · intro cid ch
    have hmem : membersOf (register st ident now).1 ch = membersOf st ch := rfl
    rw [hmem]
    by_cases h : cid = st.nextId
    · have hJ : joinedOf (register st ident now).1 cid = [] := by
        simp [joinedOf, register, h]
      rw [hJ]
      simp only [List.not_mem_nil, false_iff]
      rw [h]
      exact fresh_not_member hf hm (le_refl _) ch
    · have hJ : joinedOf (register st ident now).1 cid = joinedOf st cid := by
        simp [joinedOf, register, h]
      rw [hJ]
      exact hm cid ch

lemma join_none {st : CoreState} {cid : ConnId} (hc : st.conns cid = none)
    (ch : ChanId) : join st cid ch = (st, some .notAuthenticated) := by
  unfold join
  rw [hc]

lemma join_some {st : CoreState} {cid : ConnId} {c : Conn}
    (hc : st.conns cid = some c) (ch : ChanId) :
    join st cid ch =
      ({ st with
          conns := fun k =>
            if k = cid then some { c with joined := insertNew ch c.joined }
            else st.conns k,
          chans := fun k =>
            if k = ch then some (insertNew cid (membersOf st ch)) else st.chans k },
       none) := by
  unfold join
  rw [hc]

lemma inv_join {st : CoreState} (hinv : Inv st) (cid : ConnId) (ch : ChanId) :
    Inv (join st cid ch).1 := by
  obtain ⟨hf, hm⟩ := hinv
  cases hc : st.conns cid with
  | none =>
    rw [join_none hc]
    exact ⟨hf, hm⟩
  | some c =>
    have hJc : joinedOf st cid = c.joined := by simp [joinedOf, hc]
    have hJ' : ∀ x, joinedOf (join st cid ch).1 x
        = if x = cid then insertNew ch c.joined else joinedOf st x := by
      intro x
      rw [join_some hc]
      by_cases hx : x = cid <;> simp [joinedOf, hx]
    have hM' : ∀ y, membersOf (join st cid ch).1 y
        = if y = ch then insertNew cid (membersOf st ch) else membersOf st y := by
      intro y
      rw [join_some hc]
      by_cases hy : y = ch <;> simp [membersOf, hy]
    constructor
    · intro k hk
      rw [join_some hc] at hk ⊢
      have hk' : st.nextId ≤ k := hk
      have hkc : ¬ (k = cid) := by
        intro he
        have hle : st.nextId ≤ cid := he ▸ hk'
        rw [hf cid hle] at hc
        cases hc
      show (if k = cid then some { c with joined := insertNew ch c.joined }
          else st.conns k) = none
      rw [if_neg hkc]
      exact hf k hk'
    · intro cid' ch'
      rw [hJ' cid', hM' ch']
      by_cases h1 : cid' = cid
      · rw [if_pos h1]
        have hJc' : joinedOf st cid' = c.joined := by rw [h1, hJc]
        by_cases h2 : ch' = ch
        · rw [if_pos h2, mem_insertNew, mem_insertNew]
          simp [h1, h2]
        · rw [if_neg h2, mem_insertNew]
          constructor
          · rintro (h | hj)
            · exact absurd h h2
            · exact (hm cid' ch').mp (by rw [hJc']; exact hj)
          · intro hmem
            exact Or.inr (by rw [← hJc']; exact (hm cid' ch').mpr hmem)
      · rw [if_neg h1]
        by_cases h2 : ch' = ch
        · rw [if_pos h2, mem_insertNew]
          constructor
          · intro hj
            exact Or.inr (h2 ▸ (hm cid' ch').mp hj)
          · rintro (h | hmem)
            · exact absurd h h1
            · exact (hm cid' ch').mpr (by rw [h2]; exact hmem)
        · rw [if_neg h2]
          exact hm cid' ch'

lemma joinedOf_leave (st : CoreState) (cid : ConnId) (ch : ChanId) (x : ConnId) :
    joinedOf (leave st cid ch) x
      = if x = cid then (joinedOf st cid).filter (fun y => y ≠ ch)
        else joinedOf st x := by
  by_cases hx : x = cid
  · rw [if_pos hx, hx]
    show ((if cid = cid then
          (st.conns cid).map
            (fun c => { c with joined := c.joined.filter (fun y => y ≠ ch) })
        else st.conns cid).map Conn.joined).getD [] = _
    rw [if_pos rfl]
    cases hsc : st.conns cid <;> simp [joinedOf, hsc]
  · rw [if_neg hx]
    show ((if x = cid then
          (st.conns x).map
            (fun c => { c with joined := c.joined.filter (fun y => y ≠ ch) })
        else st.conns x).map Conn.joined).getD [] = _
    rw [if_neg hx]
    rfl

lemma membersOf_leave (st : CoreState) (cid : ConnId) (ch : ChanId) (y : ChanId) :
    membersOf (leave st cid ch) y
      = if y = ch then (rmMember cid (st.chans ch)).getD [] else membersOf st y := by
  by_cases hy : y = ch
  · rw [if_pos hy, hy]
    show (if ch = ch then rmMember cid (st.chans ch) else st.chans ch).getD [] = _
    rw [if_pos rfl]
  · rw [if_neg hy]
    show (if y = ch then rmMember cid (st.chans ch) else st.chans y).getD [] = _
    rw [if_neg hy]
    rfl

lemma inv_leave {st : CoreState} (hinv : Inv st) (cid : ConnId) (ch : ChanId) :
    Inv (leave st cid ch) := by
  obtain ⟨hf, hm⟩ := hinv
  constructor
  · intro k hk
    have hk' : st.nextId ≤ k := hk
    show (if k = cid then
        (st.conns k).map (fun c => { c with joined := c.joined.filter (fun y => y ≠ ch) })
        else st.conns k) = none
    rw [hf k hk']
    by_cases hkc : k = cid
    · rw [if_pos hkc]
      rfl
    · rw [if_neg hkc]
  · intro cid' ch'
    rw [joinedOf_leave, membersOf_leave]
    by_cases h1 : cid' = cid
    · rw [if_pos h1]
      by_cases h2 : ch' = ch
      · rw [if_pos h2, mem_filter_ne, mem_rmMember]
        constructor
        · rintro ⟨_, hne⟩
          exact absurd h2 hne
        · rintro ⟨_, hne⟩
          exact absurd h1 hne
      · rw [if_neg h2, mem_filter_ne]
        constructor
        · rintro ⟨hj, _⟩
          exact (hm cid' ch').mp (h1 ▸ hj)
        · intro hmem
          exact ⟨h1 ▸ (hm cid' ch').mpr hmem, h2⟩
    · rw [if_neg h1]
      by_cases h2 : ch' = ch
      · rw [if_pos h2, mem_rmMember]
        constructor
        · intro hj
          exact ⟨h2 ▸ (hm cid' ch').mp hj, h1⟩
        · rintro ⟨hmem, _⟩
          exact (hm cid' ch').mpr (h2.symm ▸ hmem)
      · rw [if_neg h2]
        exact hm cid' ch'

lemma inv_touch {st : CoreState} (hinv : Inv st) (cid : ConnId) (now : Nat) :
    Inv (touch st cid now) := by
  obtain ⟨hf, hm⟩ := hinv
  have hJ : ∀ x, joinedOf (touch st cid now) x = joinedOf st x := by
    intro x
    show ((if x = cid then
          (st.conns x).map (fun c => { c with lastActivityAt := now })
        else st.conns x).map Conn.joined).getD [] = _
    by_cases hx : x = cid
    · rw [if_pos hx]
      cases hsc : st.conns x <;> simp [joinedOf, hsc]
    · rw [if_neg hx]
      rfl
  constructor
  · intro k hk
    have hk' : st.nextId ≤ k := hk
    show (if k = cid then (st.conns k).map _ else st.conns k) = none
    rw [hf k hk']
    by_cases hkc : k = cid
    · rw [if_pos hkc]
      rfl
    · rw [if_neg hkc]
  · intro cid' ch'
    rw [hJ cid']
    exact hm cid' ch'

lemma evictAll_conns (cid : ConnId) (l : List ChanId) (st : CoreState) :
    (evictAll cid l st).conns = st.conns := by
  induction l generalizing st with
  | nil => rfl
  | cons a t ih =>
    simp only [evictAll, List.foldl_cons] at ih ⊢
    rw [ih]

lemma evictAll_nextId (cid : ConnId) (l : List ChanId) (st : CoreState) :
    (evictAll cid l st).nextId = st.nextId := by
  induction l generalizing st with
  | nil => rfl
  | cons a t ih =>
    simp only [evictAll, List.foldl_cons] at ih ⊢
    rw [ih]

lemma evictAll_chans (cid : ConnId) (l : List ChanId) (st : CoreState) (X : ChanId) :
    (evictAll cid l st).chans X =
      if X ∈ l then rmMember cid (st.chans X) else st.chans X := by
  induction l generalizing st with
  | nil => simp [evictAll]
  | cons a t ih =>
    simp only [evictAll, List.foldl_cons] at ih ⊢
    rw [ih]
    by_cases hXa : X = a
    · by_cases hXt : X ∈ t
      · rw [if_pos hXt]
        show rmMember cid (if X = a then rmMember cid (st.chans a) else st.chans X) = _
        rw [if_pos hXa, hXa, rmMember_idem, if_pos (List.mem_cons_self a t)]
      · rw [if_neg hXt]
        show (if X = a then rmMember cid (st.chans a) else st.chans X) = _
        rw [if_pos hXa, hXa, if_pos (List.mem_cons_self a t)]
    · have hmem : (X ∈ a :: t) ↔ (X ∈ t) := by
        rw [List.mem_cons]
        constructor
        · rintro (h | h)
          · exact absurd h hXa
          · exact h
        · exact Or.inr
      by_cases hXt : X ∈ t
      · rw [if_pos hXt]
        show rmMember cid (if X = a then rmMember cid (st.chans a) else st.chans X) = _
        rw [if_neg hXa, if_pos (hmem.mpr hXt)]
      · rw [if_neg hXt]
        show (if X = a then rmMember cid (st.chans a) else st.chans X) = _
        rw [if_neg hXa, if_neg (fun h => hXt (hmem.mp h))]

lemma unregister_none {st : CoreState} {cid : ConnId} (hc : st.conns cid = none) :
    unregister st cid = st := by
  unfold unregister
  rw [hc]

lemma unregister_some {st : CoreState} {cid : ConnId} {c : Conn}
    (hc : st.conns cid = some c) :
    unregister st cid =
      { evictAll cid c.joined st with
          conns := fun k => if k = cid then none else (evictAll cid c.joined st).conns k } := by
  unfold unregister
  rw [hc]

lemma joinedOf_unregister_some {st : CoreState} {cid : ConnId} {c : Conn}
    (hc : st.conns cid = some c) (x : ConnId) :
    joinedOf (unregister st cid) x = if x = cid then [] else joinedOf st x := by
  rw [unregister_some hc]
  by_cases hx : x = cid
  · rw [if_pos hx]
    show ((if x = cid then none else (evictAll cid c.joined st).conns x).map
        Conn.joined).getD [] = _
    rw [if_pos hx]
    rfl
  · rw [if_neg hx]
    show ((if x = cid then none else (evictAll cid c.joined st).conns x).map
        Conn.joined).getD [] = _
    rw [if_neg hx, evictAll_conns]
    rfl

lemma membersOf_unregister_some {st : CoreState} {cid : ConnId} {c : Conn}
    (hc : st.conns cid = some c) (y : ChanId) :
    membersOf (unregister st cid) y =
      if y ∈ c.joined then (rmMember cid (st.chans y)).getD [] else membersOf st y := by
  rw [unregister_some hc]
  show ((evictAll cid c.joined st).chans y).getD [] = _
  rw [evictAll_chans]
  by_cases hy : y ∈ c.joined
  · rw [if_pos hy, if_pos hy]
  · rw [if_neg hy, if_neg hy]
    rfl

lemma inv_unregister {st : CoreState} (hinv : Inv st) (cid : ConnId) :
    Inv (unregister st cid) := by
  obtain ⟨hf, hm⟩ := hinv
  cases hc : st.conns cid with
  | none =>
    rw [unregister_none hc]
    exact ⟨hf, hm⟩
  | some c =>
    have hJc : joinedOf st cid = c.joined := by simp [joinedOf, hc]
    constructor
    · intro k hk
      rw [unregister_some hc] at hk ⊢
      have hk' : st.nextId ≤ k := by
        have := evictAll_nextId cid c.joined st
        exact this ▸ hk
      show (if k = cid then none else (evictAll cid c.joined st).conns k) = none
      by_cases hkc : k = cid
      · rw [if_pos hkc]
      · rw [if_neg hkc, evictAll_conns]
        exact hf k hk'
    · intro cid' ch'
      rw [joinedOf_unregister_some hc, membersOf_unregister_some hc]
      by_cases h1 : cid' = cid
      · rw [if_pos h1]
        simp only [List.not_mem_nil, false_iff]
        by_cases h2 : ch' ∈ c.joined
        · rw [if_pos h2, mem_rmMember]
          rintro ⟨_, hne⟩
          exact hne h1
        · rw [if_neg h2]
          intro hmem
          have := (hm cid' ch').mpr hmem
          rw [h1, hJc] at this
          exact h2 this
      · rw [if_neg h1]
        by_cases h2 : ch' ∈ c.joined
        · rw [if_pos h2, mem_rmMember]
          constructor
          · intro hj
            exact ⟨(hm cid' ch').mp hj, h1⟩
          · rintro ⟨hmem, _⟩
            exact (hm cid' ch').mpr hmem
        · rw [if_neg h2]
          exact hm cid' ch'

lemma inv_wsHandshake {st : CoreState} (hinv : Inv st) (env : VerifyEnv) (now : Nat)
    (hs : Handshake) : Inv (wsHandshake env now hs st).1 := by
  unfold wsHandshake
  cases wsAuthMiddleware env now hs with
  | error e => exact hinv
  | ok ident => exact inv_register hinv ident now

/-- Every reachable core state satisfies the inductive invariant. -/
lemma reachable_inv {st : CoreState} (h : Reachable st) : Inv st := by
  induction h with
  | init => exact inv_init
  | handshake env now hs _ ih => exact inv_wsHandshake ih env now hs
  | register ident now _ ih => exact inv_register ih ident now
  | join cid ch _ ih => exact inv_join ih cid ch
  | leave cid ch _ ih => exact inv_leave ih cid ch
  | unregister cid _ ih => exact inv_unregister ih cid
  | touch cid now _ ih => exact inv_touch ih cid now

lemma hitLimiter_within {l : Limiter} {st : LimState} {ip : String} {now : Nat}
    (h : ¬ (st.windowStart + l.windowMs ≤ now)) :
    hitLimiter l st ip now
      = (⟨st.windowStart, fun k => if k = ip then st.hits ip + 1 else st.hits k⟩,
         decide (st.hits ip + 1 ≤ l.maxHits)) := by
  unfold hitLimiter
  rw [if_neg h]

/-- `demoSt3` is reachable. -/
lemma demoSt3_reachable : Reachable demoSt3 :=
  Reachable.join 0 7 (Reachable.register demoIdentB 0
    (Reachable.register demoIdentA 0 Reachable.init))

/-- `demoSt4` is reachable. -/
lemma demoSt4_reachable : Reachable demoSt4 :=
  Reachable.join 1 7 demoSt3_reachable

/-! ## Claim theorems -/

/-- C1: when the supplied credential is missing, malformed, expired, or
signature-invalid, the WebSocket handshake pipeline rejects with an
authentication error, the registry state is returned unchanged (no
partial registration), and no connection id is handed out, so the
connection never reaches an authenticated state. -/
theorem handshake_rejected_before_mutation (env : VerifyEnv) (now : Nat)
    (hs : Handshake) (st : CoreState)
    (h : extractToken hs = none ∨
      ∃ t, extractToken hs = some t ∧
        (env t = none ∨
          ∃ info, env t = some info ∧
            (info.sigValid = false ∨ info.expiresAt ≤ now))) :
    (wsHandshake env now hs st).1 = st ∧
    (∃ e, (wsHandshake env now hs st).2 = Except.error e) ∧
    ∀ cid, (wsHandshake env now hs st).2 ≠ Except.ok cid := by
  have herr : ∃ e, wsAuthMiddleware env now hs = .error e := by
    rcases h with hmiss | ⟨t, ht, hbad⟩
    · refine ⟨.missing, ?_⟩
      unfold wsAuthMiddleware
      rw [hmiss]
    · refine ⟨.invalid, ?_⟩
      unfold wsAuthMiddleware
      rw [ht]
      show jwtVerify env now t = Except.error AuthErr.invalid
      unfold jwtVerify
      rcases hbad with hmal | ⟨info, hinfo, hbad2⟩
      · rw [hmal]
      · rw [hinfo]
        show (if (info.sigValid && decide (now < info.expiresAt)) = true
            then Except.ok info.claims else Except.error AuthErr.invalid)
          = Except.error AuthErr.invalid
        rcases hbad2 with hsig | hexp
        · rw [hsig]
          simp
        · have hdec : decide (now < info.expiresAt) = false := by
            simp [Nat.not_lt.mpr hexp]
          rw [hdec]
          simp
  obtain ⟨e, he⟩ := herr
  unfold wsHandshake
  rw [he]
  exact ⟨rfl, ⟨e, rfl⟩, fun cid hok => Except.noConfusion hok⟩

theorem handshake_rejected_before_mutation_witness :
    (wsHandshake (fun _ => none) 0 ⟨none, none, []⟩ initState).1 = initState ∧
    (∃ e, (wsHandshake (fun _ => none) 0 ⟨none, none, []⟩ initState).2 = Except.error e) ∧
    ∀ cid, (wsHandshake (fun _ => none) 0 ⟨none, none, []⟩ initState).2 ≠ Except.ok cid :=
  handshake_rejected_before_mutation (fun _ => none) 0 ⟨none, none, []⟩ initState
    (Or.inl rfl)

/-- C2: every reachable state of the registries satisfies bidirectional
membership consistency — a connection's joined set contains a channel iff
that channel's member set contains the connection id; no reachable state
violates the biconditional. -/
theorem membership_biconditional_reachable {st : CoreState} (h : Reachable st) :
    MembershipInv st :=
  (reachable_inv h).2

theorem membership_biconditional_reachable_witness : MembershipInv demoSt4 :=
  membership_biconditional_reachable demoSt4_reachable

/-- C3: `publish` fails with `NotMemberError` when the sender is not a
member of the channel, and otherwise (self-exclusion enabled) the
delivery set is exactly the channel's current members minus the sender. -/
theorem publish_delivery_set (cfg : RouterConfig) (st : CoreState)
    (sender : ConnId) (ch : ChanId) (hcfg : cfg.excludeSelf = true) :
    (sender ∉ membersOf st ch → publish cfg st sender ch = .error .notMember) ∧
    (sender ∈ membersOf st ch →
      publish cfg st sender ch
        = .ok ((membersOf st ch).filter (fun m => m ≠ sender)) ∧
      ∀ x, x ∈ (membersOf st ch).filter (fun m => m ≠ sender) ↔
        (x ∈ membersOf st ch ∧ x ≠ sender)) := by
  constructor
  · intro hnot
    simp only [publish]
    rw [if_neg hnot]
  · intro hmem
    refine ⟨?_, fun x => mem_filter_ne⟩
    simp only [publish]
    rw [if_pos hmem, hcfg]
    simp

theorem publish_delivery_set_witness :
    (0 ∉ membersOf demoStABC 7 →
      publish ⟨true⟩ demoStABC 0 7 = .error .notMember) ∧
    (0 ∈ membersOf demoStABC 7 →
      publish ⟨true⟩ demoStABC 0 7
        = .ok ((membersOf demoStABC 7).filter (fun m => m ≠ 0)) ∧
      ∀ x, x ∈ (membersOf demoStABC 7).filter (fun m => m ≠ 0) ↔
        (x ∈ membersOf demoStABC 7 ∧ x ≠ 0)) :=
  publish_delivery_set ⟨true⟩ demoStABC 0 7 rfl

/-- C5: `unregister` removes the connection from every channel, deletes a
channel of which it was the sole member (`membersOf` then returns empty /
channel-not-found), and is idempotent — a no-op on an already-removed
id. -/
theorem unregister_evicts_and_idempotent {st : CoreState} (h : Reachable st)
    (cid : ConnId) :
    (∀ ch, cid ∉ membersOf (unregister st cid) ch) ∧
    (∀ X, membersOf st X = [cid] →
      (unregister st cid).chans X = none ∧ membersOf (unregister st cid) X = []) ∧
    (st.conns cid = none → unregister st cid = st) ∧
    unregister (unregister st cid) cid = unregister st cid := by
  have hm : MembershipInv st := (reachable_inv h).2
  refine ⟨?_, ?_, ?_, ?_⟩
  · intro ch
    cases hc : st.conns cid with
    | none =>
      rw [unregister_none hc]
      intro hmem
      have hj := (hm cid ch).mpr hmem
      simp only [joinedOf, hc, Option.map_none', Option.getD_none] at hj
      exact List.not_mem_nil ch hj
    | some c =>
      rw [membersOf_unregister_some hc]
      by_cases hy : ch ∈ c.joined
      · rw [if_pos hy, mem_rmMember]
        rintro ⟨_, hne⟩
        exact hne rfl
      · rw [if_neg hy]
        intro hmem
        have hj := (hm cid ch).mpr hmem
        simp only [joinedOf, hc, Option.map_some', Option.getD_some] at hj
        exact hy hj
  · intro X hX
    have hchX : st.chans X = some [cid] := by
      cases hcx : st.chans X with
      | none =>
        rw [membersOf, hcx] at hX
        exact absurd hX (by simp)
      | some ms =>
        rw [membersOf, hcx] at hX
        simp only [Option.getD_some] at hX
        rw [hX]
    have hmemX : cid ∈ membersOf st X := by
      rw [hX]
      exact List.mem_cons_self cid []
    have hjX := (hm cid X).mpr hmemX
    cases hc : st.conns cid with
    | none =>
      simp only [joinedOf, hc, Option.map_none', Option.getD_none] at hjX
      exact absurd hjX (List.not_mem_nil X)
    | some c =>
      have hXj : X ∈ c.joined := by
        simp only [joinedOf, hc, Option.map_some', Option.getD_some] at hjX
        exact hjX
      have hrm : rmMember cid (st.chans X) = none := by
        rw [hchX, rmMember_some]
        have hfilter : [cid].filter (fun m => m ≠ cid) = [] := by simp
        rw [if_pos hfilter]
      constructor
      · rw [unregister_some hc]
        show (evictAll cid c.joined st).chans X = none
        rw [evictAll_chans, if_pos hXj, hrm]
      · rw [membersOf_unregister_some hc, if_pos hXj, hrm]
        rfl
  · intro hc
    exact unregister_none hc
  · cases hc : st.conns cid with
    | none =>
      rw [unregister_none hc, unregister_none hc]
    | some c =>
      have h2 : (unregister st cid).conns cid = none := by
        rw [unregister_some hc]
        show (if cid = cid then none else (evictAll cid c.joined st).conns cid) = none
        rw [if_pos rfl]
      rw [unregister_none h2]

theorem unregister_evicts_and_idempotent_witness :
    (∀ ch, 0 ∉ membersOf (unregister demoSt3 0) ch) ∧
    (∀ X, membersOf demoSt3 X = [0] →
      (unregister demoSt3 0).chans X = none ∧
      membersOf (unregister demoSt3 0) X = []) ∧
    (demoSt3.conns 0 = none → unregister demoSt3 0 = demoSt3) ∧
    unregister (unregister demoSt3 0) 0 = unregister demoSt3 0 :=
  unregister_evicts_and_idempotent demoSt3_reachable 0

/-- C4: with `maxEvents = 3` and `windowMs = 1000`, for every connection
the first three events inside a window are admitted, the fourth in the
same window is rejected and the guarded publish path signals
`RateLimitedError` back to the originating connection (never a silent
drop), and once the window has elapsed a new event is admitted again. -/
theorem rate_guard_three_per_window (rcfg : RouterConfig) (st : CoreState)
    (cid : ConnId) (ch : ChanId) :
    (allowEvent ⟨3, 1000⟩ (guardAfter ⟨3, 1000⟩ cid []) cid 0).1 = true ∧
    (allowEvent ⟨3, 1000⟩ (guardAfter ⟨3, 1000⟩ cid [0]) cid 100).1 = true ∧
    (allowEvent ⟨3, 1000⟩ (guardAfter ⟨3, 1000⟩ cid [0, 100]) cid 200).1 = true ∧
    (allowEvent ⟨3, 1000⟩ (guardAfter ⟨3, 1000⟩ cid [0, 100, 200]) cid 300).1 = false ∧
    routedPublish ⟨3, 1000⟩ rcfg (guardAfter ⟨3, 1000⟩ cid [0, 100, 200]) st cid ch 300
      = (guardAfter ⟨3, 1000⟩ cid [0, 100, 200], .error .rateLimited) ∧
    (allowEvent ⟨3, 1000⟩ (guardAfter ⟨3, 1000⟩ cid [0, 100, 200]) cid 1200).1 = true := by
  have h3 : (guardAfter ⟨3, 1000⟩ cid [0, 100, 200]).events cid = [200, 100, 0] := by
    simp [guardAfter, allowEvent, inWindow, initGuard, List.filter]
  have h4 : allowEvent ⟨3, 1000⟩ (guardAfter ⟨3, 1000⟩ cid [0, 100, 200]) cid 300
      = (false, guardAfter ⟨3, 1000⟩ cid [0, 100, 200]) := by
    simp [allowEvent, inWindow, h3, List.filter]
  refine ⟨?_, ?_, ?_, ?_, ?_, ?_⟩
  · simp [guardAfter, allowEvent, inWindow, initGuard]
  · simp [guardAfter, allowEvent, inWindow, initGuard, List.filter]
  · simp [guardAfter, allowEvent, inWindow, initGuard, List.filter]
  · rw [h4]
  · simp only [routedPublish, h4]
  · simp [allowEvent, inWindow, h3, List.filter]

/-- C6: for a fixed membership state, a recipient of a single sender's
publishes on a single channel observes exactly those events in the order
the `publish` calls were invoked. -/
theorem ordering_per_sender_channel (cfg : RouterConfig) (st : CoreState)
    (A : ConnId) (X : ChanId) (r : ConnId) (recips : List ConnId)
    (hpub : publish cfg st A X = .ok recips) (hr : r ∈ recips) (ps : List Nat) :
    observedBy cfg st (ps.map fun p => ⟨A, X, p⟩) r
      = ps.map fun p => (⟨A, X, p⟩ : Delivered) := by
  induction ps with
  | nil => rfl
  | cons p t ih =>
    simp only [List.map_cons, observedBy, List.filterMap_cons] at ih ⊢
    simp only [hpub, hr, ite_true]
    rw [ih]

theorem ordering_per_sender_channel_witness :
    observedBy ⟨true⟩ demoStABC ([10, 20, 30].map fun p => ⟨0, 7, p⟩) 1
      = [10, 20, 30].map fun p => (⟨0, 7, p⟩ : Delivered) :=
  ordering_per_sender_channel ⟨true⟩ demoStABC 0 7 1
    ((membersOf demoStABC 7).filter (fun m => m ≠ 0))
    (by rfl) (by decide) [10, 20, 30]

/-- C7 counterexample: a handshake presenting a valid token only through
the `Authorization: Bearer <token>` header is rejected with the
missing-credential error — the middleware reads only
`handshake.auth.token` and `handshake.query.token`, never the header. -/
theorem header_bearer_token_not_accepted :
    jwtVerify demoEnv 0 "tok" = .ok ⟨1, "alice"⟩ ∧
    wsAuthMiddleware demoEnv 0 ⟨none, none, [("authorization", "Bearer tok")]⟩
      = .error .missing := by
  constructor
  · rfl
  · rfl

/-- C7 (amended): the credential token is accepted from the socket.io
handshake `auth.token` field or from the `token` query parameter (when
the auth field is absent or empty); through either of these two channels
a valid token authenticates successfully. -/
theorem token_accepted_from_auth_or_query (env : VerifyEnv) (now : Nat)
    (t : String) (info : TokenInfo) (henv : env t = some info)
    (hsig : info.sigValid = true) (hexp : now < info.expiresAt) (hne : t ≠ "") :
    (∀ q hdrs, wsAuthMiddleware env now ⟨some t, q, hdrs⟩ = .ok info.claims) ∧
    (∀ a hdrs, (a = none ∨ a = some "") →
      wsAuthMiddleware env now ⟨a, some t, hdrs⟩ = .ok info.claims) := by
  have hver : jwtVerify env now t = .ok info.claims := by
    unfold jwtVerify
    rw [henv]
    show (if (info.sigValid && decide (now < info.expiresAt)) = true
        then Except.ok info.claims else Except.error AuthErr.invalid) = _
    rw [hsig]
    simp [hexp]
  constructor
  · intro q hdrs
    unfold wsAuthMiddleware
    have hext : extractToken ⟨some t, q, hdrs⟩ = some t := by
      simp [extractToken, jsOr, hne]
    rw [hext]
    exact hver
  · intro a hdrs ha
    unfold wsAuthMiddleware
    have hext : extractToken ⟨a, some t, hdrs⟩ = some t := by
      rcases ha with rfl | rfl <;> simp [extractToken, jsOr, hne]
    rw [hext]
    exact hver

theorem token_accepted_from_auth_or_query_witness :
    (∀ q hdrs, wsAuthMiddleware demoEnv 0 ⟨some "tok", q, hdrs⟩
      = .ok (⟨true, 1000, ⟨1, "alice"⟩⟩ : TokenInfo).claims) ∧
    (∀ a hdrs, (a = none ∨ a = some "") →
      wsAuthMiddleware demoEnv 0 ⟨a, some "tok", hdrs⟩
        = .ok (⟨true, 1000, ⟨1, "alice"⟩⟩ : TokenInfo).claims) :=
  token_accepted_from_auth_or_query demoEnv 0 "tok" ⟨true, 1000, ⟨1, "alice"⟩⟩
    rfl rfl (by decide) (by decide)

/-- C8 counterexample: the fetch handler is not cache-first — for a GET
request to `/` whose response is cached, with the network available the
handler serves the network response, not the cached one. -/
theorem sw_cache_first_refuted : ¬ CacheFirstFetch := by
  intro h
  have hcached : demoCache ("/" : String) = some 7 := rfl
  have hres : (swFetch demoCache (.ok 42) ⟨"GET", "/", "default"⟩).1
      = .fromNetwork 42 := rfl
  have := h demoCache (.ok 42) ⟨"GET", "/", "default"⟩ 7 hcached
  rcases this with h1 | h1 <;> rw [hres] at h1 <;> cases h1

/-- C8 (amended): the fetch handler is network-first — for every
intercepted GET request it serves the network response when the network
succeeds, and consults the cache only on network failure, falling back to
the cached `/index.html` for navigations and to a 503 otherwise. -/
theorem sw_network_first (cache : String → Option Nat) (req : SWRequest)
    (hget : req.method = "GET")
    (hapi : req.pathname.startsWith "/api/" = false)
    (hsio : req.pathname.startsWith "/socket.io/" = false) :
    (∀ resp, (swFetch cache (.ok resp) req).1 = .fromNetwork resp) ∧
    (∀ c, cache req.pathname = some c →
      (swFetch cache .failure req).1 = .fromCache c) ∧
    (cache req.pathname = none → req.mode = "navigate" →
      (swFetch cache .failure req).1 = .navFallback (cache "/index.html")) ∧
    (cache req.pathname = none → req.mode ≠ "navigate" →
      (swFetch cache .failure req).1 = .offline503) := by
  have hm : ¬ (req.method ≠ "GET") := by simp [hget]
  refine ⟨?_, ?_, ?_, ?_⟩
  · intro resp
    simp [swFetch, hm, hapi, hsio]
  · intro c hc
    simp [swFetch, hm, hapi, hsio, hc]
  · intro hc hnav
    simp [swFetch, hm, hapi, hsio, hc, hnav]
  · intro hc hnav
    simp [swFetch, hm, hapi, hsio, hc, hnav]

theorem sw_network_first_witness :
    (∀ resp, (swFetch demoCache (.ok resp) ⟨"GET", "/", "default"⟩).1
      = .fromNetwork resp) ∧
    (∀ c, demoCache ("/" : String) = some c →
      (swFetch demoCache .failure ⟨"GET", "/", "default"⟩).1 = .fromCache c) ∧
    (demoCache ("/" : String) = none → ("default" : String) = "navigate" →
      (swFetch demoCache .failure ⟨"GET", "/", "default"⟩).1
        = .navFallback (demoCache "/index.html")) ∧
    (demoCache ("/" : String) = none → ("default" : String) ≠ "navigate" →
      (swFetch demoCache .failure ⟨"GET", "/", "default"⟩).1 = .offline503) :=
  sw_network_first demoCache ⟨"GET", "/", "default"⟩ rfl rfl rfl

/-- C9: a fetch event whose request is not a GET, or whose URL path
starts with `/api/` or `/socket.io/`, is returned without `respondWith`:
the handler passes it through unchanged (and the cache is untouched). -/
theorem sw_passthrough_non_get_api (cache : String → Option Nat)
    (net : NetOutcome) (req : SWRequest)
    (h : req.method ≠ "GET" ∨ req.pathname.startsWith "/api/" = true ∨
      req.pathname.startsWith "/socket.io/" = true) :
    swFetch cache net req = (.passThrough, cache) := by
  unfold swFetch
  by_cases hm : req.method ≠ "GET"
  · rw [if_pos hm]
  · rw [if_neg hm]
    have hpath : (req.pathname.startsWith "/api/"
        || req.pathname.startsWith "/socket.io/") = true := by
      rcases h with h | h | h
      · exact absurd h hm
      · rw [h]
        rfl
      · rw [h, Bool.or_true]
    rw [if_pos hpath]

theorem sw_passthrough_non_get_api_witness :
    swFetch demoCache (.ok 42) ⟨"POST", "/", "default"⟩ = (.passThrough, demoCache) :=
  sw_passthrough_non_get_api demoCache (.ok 42) ⟨"POST", "/", "default"⟩
    (Or.inl (by decide))

/-- C10: within the current windows, every request from an IP that has
already made 100 requests is answered with the global limiter's
structured message; requests below the global limit reach their route
handler unless they target `/api/auth/login` or `/api/auth/register` and
the IP has already made 5 auth requests, in which case the auth limiter's
structured message is returned; in all rejection cases the route handler
is never reached. -/
theorem http_rate_limits (gst ast : LimState) (ip path : String) (now : Nat)
    (hgw : now < gst.windowStart + limiter.windowMs)
    (haw : now < ast.windowStart + authLimiter.windowMs) :
    (limiter.maxHits ≤ gst.hits ip →
      (handleRequest gst ast ip path now).2.2 = .limited limiter.message) ∧
    (gst.hits ip < limiter.maxHits → isAuthPath path = false →
      (handleRequest gst ast ip path now).2.2 = .handled path) ∧
    (gst.hits ip < limiter.maxHits → isAuthPath path = true →
      authLimiter.maxHits ≤ ast.hits ip →
      (handleRequest gst ast ip path now).2.2 = .limited authLimiter.message) ∧
    (gst.hits ip < limiter.maxHits → isAuthPath path = true →
      ast.hits ip < authLimiter.maxHits →
      (handleRequest gst ast ip path now).2.2 = .handled path) := by
  have hg0 : ¬ (gst.windowStart + limiter.windowMs ≤ now) := Nat.not_le.mpr hgw
  have ha0 : ¬ (ast.windowStart + authLimiter.windowMs ≤ now) := Nat.not_le.mpr haw
  refine ⟨?_, ?_, ?_, ?_⟩
  · intro hover
    have hrej : decide (gst.hits ip + 1 ≤ limiter.maxHits) = false := by
      simp only [decide_eq_false_iff_not]
      omega
    simp [handleRequest, hitLimiter_within hg0, hrej]
  · intro hunder hpath
    have hadm : decide (gst.hits ip + 1 ≤ limiter.maxHits) = true := by
      simp only [decide_eq_true_eq]
      omega
    simp [handleRequest, hitLimiter_within hg0, hadm, hpath]
  · intro hunder hpath hover
    have hadm : decide (gst.hits ip + 1 ≤ limiter.maxHits) = true := by
      simp only [decide_eq_true_eq]
      omega
    have hrej : decide (ast.hits ip + 1 ≤ authLimiter.maxHits) = false := by
      simp only [decide_eq_false_iff_not]
      omega
    simp [handleRequest, hitLimiter_within hg0, hitLimiter_within ha0, hadm,
      hpath, hrej]
  · intro hunder hpath hadm2
    have hadm : decide (gst.hits ip + 1 ≤ limiter.maxHits) = true := by
      simp only [decide_eq_true_eq]
      omega
    have hadm' : decide (ast.hits ip + 1 ≤ authLimiter.maxHits) = true := by
      simp only [decide_eq_true_eq]
      omega
    simp [handleRequest, hitLimiter_within hg0, hitLimiter_within ha0, hadm,
      hpath, hadm']

theorem http_rate_limits_witness :
    (limiter.maxHits ≤ (demoLim 100).hits "10.0.0.1" →
      (handleRequest (demoLim 100) (demoLim 5) "10.0.0.1" "/api/auth/login" 0).2.2
        = .limited limiter.message) ∧
    ((demoLim 100).hits "10.0.0.1" < limiter.maxHits →
      isAuthPath "/api/auth/login" = false →
      (handleRequest (demoLim 100) (demoLim 5) "10.0.0.1" "/api/auth/login" 0).2.2
        = .handled "/api/auth/login") ∧
    ((demoLim 100).hits "10.0.0.1" < limiter.maxHits →
      isAuthPath "/api/auth/login" = true →
      authLimiter.maxHits ≤ (demoLim 5).hits "10.0.0.1" →
      (handleRequest (demoLim 100) (demoLim 5) "10.0.0.1" "/api/auth/login" 0).2.2
        = .limited authLimiter.message) ∧
    ((demoLim 100).hits "10.0.0.1" < limiter.maxHits →
      isAuthPath "/api/auth/login" = true →
      (demoLim 5).hits "10.0.0.1" < authLimiter.maxHits →
      (handleRequest (demoLim 100) (demoLim 5) "10.0.0.1" "/api/auth/login" 0).2.2
        = .handled "/api/auth/login") :=
  http_rate_limits (demoLim 100) (demoLim 5) "10.0.0.1" "/api/auth/login" 0
    (by decide) (by decide)

end GoChat
